import Mathlib

/-!
Shallow embedding of the DutyMitra inspection app (`src/app.py`), a
Streamlit pipeline that loads a Google-Sheet CSV, decodes a composite
site-label field, resolves Google-Drive image links, builds a per-row
template context, filters rows by a selected date, and packages per-row
PDFs into a ZIP archive.

Python strings are embedded as Lean `String` (a wrapper around `List
Char`), with Python's string primitives (`strip`, `split`,
`split(sep, 2)`, `replace`) re-implemented on `List Char` so that
theorems can reason about them directly.  Spreadsheet cell values are an
inductive `Cell` covering strings, numbers and the two missing-value
markers pandas produces (`NaN`, `None`).  Network effects are passed in
as explicit oracles.
-/

namespace DutyMitra

/-- Python `str.strip()` on the left: drop leading whitespace. -/
def stripLeft (l : List Char) : List Char := l.dropWhile Char.isWhitespace

/-- Python `str.strip()`: drop leading and trailing whitespace. -/
def pyStripL (l : List Char) : List Char :=
  ((stripLeft l).reverse.dropWhile Char.isWhitespace).reverse

/-- Python `str.strip()` lifted to `String`. -/
def pyStrip (s : String) : String := String.mk (pyStripL s.data)

/-- Python `str.split(sep)` (no maxsplit): all pieces, empties kept. -/
def splitChar (sep : Char) : List Char → List (List Char)
  | [] => [[]]
  | c :: cs =>
    if c = sep then [] :: splitChar sep cs
    else
      match splitChar sep cs with
      | [] => [[c]]
      | p :: ps => (c :: p) :: ps

/-- Split a list at the first occurrence of `sep`:
`some (before, after)` when `sep` occurs, `none` otherwise. -/
def splitOnce (sep : Char) : List Char → Option (List Char × List Char)
  | [] => none
  | c :: cs =>
    if c = sep then some ([], cs)
    else
      match splitOnce sep cs with
      | none => none
      | some (a, b) => some (c :: a, b)

/-- Python `str.split(sep, 2)`: at most two splits, so at most three
pieces; the third piece keeps any further separators. -/
def splitMax2 (sep : Char) (l : List Char) : List (List Char) :=
  match splitOnce sep l with
  | none => [l]
  | some (a, rest) =>
    match splitOnce sep rest with
    | none => [a, rest]
    | some (b, rest2) => [a, b, rest2]

/-- A spreadsheet cell as pandas hands it to the app: a string, a
number, or one of the two missing-value markers (`NaN` from pandas,
Python `None`). -/
inductive Cell where
  | cStr (s : String)
  | cNum (n : Int)
  | cNaN
  | cNone
  deriving DecidableEq, Repr

/-- `pd.isna` on a cell: true exactly on the missing-value markers. -/
def Cell.isna : Cell → Bool
  | Cell.cNaN => true
  | Cell.cNone => true
  | _ => false

/-- `isinstance(v, str)` on a cell. -/
def Cell.isStr : Cell → Bool
  | Cell.cStr _ => true
  | _ => false

/-- `parse_site_name` (src/app.py:50-66).  Non-string input yields
`("", "", "")`; a string is split on `"-"` with at most 2 splits; with
fewer than three pieces the whole trimmed string becomes the site name;
otherwise the three pieces are trimmed and returned as
(zone, unit code, site name). -/
def parse_site_name (raw : Cell) : String × String × String :=
  match raw with
  | Cell.cStr s =>
    let parts := splitMax2 '-' s.data
    if parts.length < 3 then
      ("", "", pyStrip s)
    else
      (String.mk (pyStripL (parts.getD 0 [])),
       String.mk (pyStripL (parts.getD 1 [])),
       String.mk (pyStripL (parts.getD 2 [])))
  | _ => ("", "", "")

/-- `Bool`-valued test that the first list is an initial segment of the
second (used to model matching a regex literal at a position). -/
def litMatch : List Char → List Char → Bool
  | [], _ => true
  | _ :: _, [] => false
  | a :: as, b :: bs => a == b && litMatch as bs

/-- Python `str.startswith`. -/
def pyStartsWith (pre s : String) : Bool := litMatch pre.data s.data

/-- Characters matched by the ID character classes `[a-zA-Z0-9-_]` /
`[A-Za-z0-9_-]` used in the app's regexes. -/
def idChar (c : Char) : Bool := c.isAlphanum || c == '-' || c == '_'

/-- Maximal run of ID characters at the front of a list (the greedy
`([a-zA-Z0-9-_]+)` group, minus the non-emptiness requirement). -/
def takeIdChars : List Char → List Char
  | [] => []
  | c :: cs => if idChar c then c :: takeIdChars cs else []

/-- `re.search` for a pattern `<lit>([a-zA-Z0-9-_]+)`: scan left to
right for the first position where the literal occurs followed by at
least one ID character, and return the greedy group there. -/
def scanLitId (lit : List Char) : List Char → Option (List Char)
  | [] => none
  | c :: cs =>
    if litMatch lit (c :: cs) then
      match takeIdChars ((c :: cs).drop lit.length) with
      | [] => scanLitId lit cs
      | r => some r
    else scanLitId lit cs

/-- `re.search` for the pattern `/d/([A-Za-z0-9_-]+)/`: the greedy ID
group must be non-empty and be followed by a literal `/` (backtracking
cannot shorten the group, since ID characters are never `/`). -/
def scanDId : List Char → Option (List Char)
  | [] => none
  | c :: cs =>
    if litMatch ['/', 'd', '/'] (c :: cs) then
      match takeIdChars ((c :: cs).drop 3),
            ((c :: cs).drop 3).drop (takeIdChars ((c :: cs).drop 3)).length with
      | [], _ => scanDId cs
      | r, '/' :: _ => some r
      | _, _ => scanDId cs
    else scanDId cs

/-- The literal part of the spreadsheet URL pattern
`/spreadsheets/d/([a-zA-Z0-9-_]+)`. -/
def sheetLit : List Char := "/spreadsheets/d/".data

/-- `extract_sheet_id` (src/app.py:19-32): return the ID group of the
first `/spreadsheets/d/<id>` match, or the stripped input when the
pattern does not occur. -/
def extract_sheet_id (sheet_input : String) : String :=
  match scanLitId sheetLit sheet_input.data with
  | some r => String.mk r
  | none => pyStrip sheet_input

/-- `extract_drive_file_id` (src/app.py:71-85): try `id=([A-Za-z0-9_-]+)`,
then `/d/([A-Za-z0-9_-]+)/`; return the first match's group, else the
empty-string sentinel. -/
def extract_drive_file_id (url : String) : String :=
  match scanLitId ['i', 'd', '='] url.data with
  | some r => String.mk r
  | none =>
    match scanDId url.data with
    | some r => String.mk r
    | none => ""

/-- Outcome of one `requests.get`: an HTTP response (status, optional
`Content-Type` header, body bytes abstracted as a string) or a raised
transport exception. -/
inductive FetchResult where
  | resp (status : Nat) (contentType : Option String) (body : String)
  | netError
  deriving DecidableEq, Repr

/-- The network, as an oracle from URL to outcome. -/
abbrev Fetch := String → FetchResult

/-- The Drive download endpoint built in `download_drive_image`. -/
def drive_download_url (fileId : String) : String :=
  "https://drive.google.com/uc?export=download&id=" ++ fileId

/-- `download_drive_image` (src/app.py:88-109): resolve a share link to
image bytes, or `none` on a sentinel ID, a transport failure, a
non-200 status, or a non-`image/` content type. -/
def download_drive_image (fetch : Fetch) (url : String) : Option String :=
  let file_id := extract_drive_file_id url
  if file_id = "" then none
  else
    match fetch (drive_download_url file_id) with
    | FetchResult.netError => none
    | FetchResult.resp status ct body =>
      if status = 200 then
        if pyStartsWith "image/" (ct.getD "") then some body else none
      else none

/-- The reference-list splitting of src/app.py:127-128: split on commas,
strip each piece, keep the non-blank pieces (guarded by the emptiness
test on the raw field, src/app.py:127). -/
def split_urls (images_raw : String) : List String :=
  if images_raw = "" then []
  else
    ((splitChar ',' images_raw.data).map fun u => String.mk (pyStripL u)).filter
      fun u => u ≠ ""

/-- The image-resolution loop of src/app.py:129-132: download each
reference in order, appending only the successful payloads. -/
def resolve_images (fetch : Fetch) (images_raw : String) : List String :=
  (split_urls images_raw).foldl
    (fun acc url =>
      match download_drive_image fetch url with
      | some b => acc ++ [b]
      | none => acc)
    []

/-- A spreadsheet row: an association list from column name to cell
value (pandas `Series.get` semantics). -/
abbrev Row := List (String × Cell)

/-- `row.get(key, default)`: the cell under `key`, or `default` when
the column is absent. -/
def rowGet (row : Row) (key : String) (dflt : Cell) : Cell :=
  match row.find? (fun kv => kv.1 == key) with
  | some kv => kv.2
  | none => dflt

/-- The scalar context of `render_docx_for_row` (src/app.py:135-150),
before NaN/None cleaning: decoded site-label parts plus the raw
defensive lookups. -/
def scalar_context (row : Row) : List (String × Cell) :=
  let z := parse_site_name (rowGet row "Site Name" (Cell.cStr ""))
  [("zone", Cell.cStr z.1),
   ("unit_code", Cell.cStr z.2.1),
   ("site_name", Cell.cStr z.2.2),
   ("date", rowGet row "Date" (Cell.cStr "")),
   ("time", rowGet row "Time" (Cell.cStr "")),
   ("attendance_register",
     rowGet row "Documentation Check [Attendance Register]" (Cell.cStr "")),
   ("handling_register",
     rowGet row "Documentation Check [Handling / Taking Over Register]" (Cell.cStr "")),
   ("material_register",
     rowGet row "Documentation Check [Visitor Log Register]" (Cell.cStr "")),
   ("grooming", rowGet row "Performance Check [Grooming]" (Cell.cStr "")),
   ("alertness", rowGet row "Performance Check [Alertness]" (Cell.cStr "")),
   ("post_discipline", rowGet row "Performance Check [Post Discipline]" (Cell.cStr "")),
   ("overall_rating", rowGet row "Performance Check [Overall Rating]" (Cell.cStr "")),
   ("observation", rowGet row "Observation" (Cell.cStr "")),
   ("inspected_by", rowGet row "Inspected By" (Cell.cStr ""))]

/-- The NaN/None cleaning pass of src/app.py:153-157: `pd.isna` values
and `None` are replaced by the empty string. -/
def normalize_cell (v : Cell) : Cell :=
  if v.isna then Cell.cStr ""
  else if v = Cell.cNone then Cell.cStr ""
  else v

/-- The cleaned scalar render context handed to the template. -/
def build_context (row : Row) : List (String × Cell) :=
  (scalar_context row).map fun kv => (kv.1, normalize_cell kv.2)

/-- One row of the loaded table: its cells plus the `Date_parsed` column
computed once at load time (src/app.py:209, `errors="coerce"`); `none`
models `NaT` for an unparseable date.  Dates are abstracted as their
ISO strings. -/
structure TableRow where
  cells : Row
  date_parsed : Option String
  deriving DecidableEq, Repr

/-- The date filter of src/app.py:240: rows whose parsed date equals the
selected date, in original order (`NaT` rows never match). -/
def export_batch (t : List TableRow) (d : String) : List TableRow :=
  t.filter fun r => decide (r.date_parsed = some d)

/-- Python `s.replace(" ", "_")` (single-character replace is a
character-wise map). -/
def underscoreSpaces (s : String) : String :=
  String.mk (s.data.map fun c => if c = ' ' then '_' else c)

/-- The site part of the archive entry name (src/app.py:277-278):
decoded site name, with `"Site"` substituted when it is falsy. -/
def site_slug (row : Row) : String :=
  let z := parse_site_name (rowGet row "Site Name" (Cell.cStr "Site"))
  underscoreSpaces (if z.2.2 = "" then "Site" else z.2.2)

/-- The archive entry name of src/app.py:282:
`f"{selected_date}_{site_slug}.pdf"`. -/
def pdf_filename (selected_date : String) (row : Row) : String :=
  selected_date ++ "_" ++ site_slug row ++ ".pdf"

/-- The per-row loop of src/app.py:258-285 inside the `try` block: each
row is rendered and converted (modelled by the `conv` oracle, covering
`render_docx_for_row` and `convert`, either of which may raise), and on
success its named PDF joins the archive; the first exception aborts the
whole loop. -/
def generate_zip (conv : Row → Except String String) (d : String) :
    List TableRow → Except String (List (String × String))
  | [] => Except.ok []
  | r :: rs =>
    match conv r.cells with
    | Except.error e => Except.error e
    | Except.ok pdf =>
      match generate_zip conv d rs with
      | Except.error e => Except.error e
      | Except.ok rest => Except.ok ((pdf_filename d r.cells, pdf) :: rest)

/-- What the page shows after the date filter (src/app.py:240-306): an
empty-batch warning, an error message, and/or an offered archive
download. -/
structure PageView where
  warned_empty : Bool
  error_shown : Bool
  download : Option (List (String × String))
  deriving DecidableEq, Repr

/-- The tail of `main` (src/app.py:240-306): warn and stop on an empty
batch (line 243-245); otherwise, when Generate is clicked, build the
archive, offering the download only when no row raised (the `except`
at line 304 shows the error and offers nothing). -/
def render_page (conv : Row → Except String String) (t : List TableRow)
    (d : String) (generate_clicked : Bool) : PageView :=
  let batch := export_batch t d
  if batch.isEmpty then ⟨true, false, none⟩
  else if generate_clicked then
    match generate_zip conv d batch with
    | Except.ok entries => ⟨false, false, some entries⟩
    | Except.error _ => ⟨false, true, none⟩
  else ⟨false, false, none⟩

/-! ### Lemmas about splitting at the first occurrences of a separator -/

lemma splitOnce_of_not_mem {sep : Char} {l : List Char} (h : sep ∉ l) :
    splitOnce sep l = none := by
  induction l with
  | nil => rfl
  | cons c cs ih =>
    have hc : ¬ c = sep := by rintro rfl; exact h (List.mem_cons_self _ _)
    have hcs : sep ∉ cs := fun m => h (List.mem_cons_of_mem c m)
    simp [splitOnce, hc, ih hcs]

lemma splitOnce_some {sep : Char} {l a b : List Char}
    (h : splitOnce sep l = some (a, b)) : l = a ++ sep :: b ∧ sep ∉ a := by
  induction l generalizing a b with
  | nil => exact absurd h (by simp [splitOnce])
  | cons c cs ih =>
    by_cases hc : c = sep
    · subst hc
      simp [splitOnce] at h
      obtain ⟨rfl, rfl⟩ := h
      simp
    · simp only [splitOnce, if_neg hc] at h
      cases hs : splitOnce sep cs with
      | none => rw [hs] at h; exact absurd h (by simp)
      | some p =>
        obtain ⟨a1, b1⟩ := p
        rw [hs] at h
        simp only [Option.some.injEq, Prod.mk.injEq] at h
        obtain ⟨rfl, rfl⟩ := h
        obtain ⟨hl, hna⟩ := ih hs
        refine ⟨by rw [hl]; rfl, ?_⟩
        intro hm
        rcases List.mem_cons.mp hm with e | hm2
        · exact hc e.symm
        · exact hna hm2

lemma splitOnce_none_not_mem {sep : Char} {l : List Char}
    (h : splitOnce sep l = none) : sep ∉ l := by
  induction l with
  | nil => simp
  | cons c cs ih =>
    by_cases hc : c = sep
    · subst hc; simp [splitOnce] at h
    · simp only [splitOnce, if_neg hc] at h
      cases hs : splitOnce sep cs with
      | none =>
        intro hm
        rcases List.mem_cons.mp hm with e | hm2
        · exact hc e.symm
        · exact ih hs hm2
      | some p => obtain ⟨a1, b1⟩ := p; rw [hs] at h; simp at h

lemma splitMax2_of_two_le {s : List Char} (h : 2 ≤ s.count '-') :
    ∃ a b c, s = a ++ '-' :: (b ++ '-' :: c) ∧ '-' ∉ a ∧ '-' ∉ b ∧
      splitMax2 '-' s = [a, b, c] := by
  cases h1 : splitOnce '-' s with
  | none =>
    exfalso
    rw [List.count_eq_zero.mpr (splitOnce_none_not_mem h1)] at h
    omega
  | some p =>
    obtain ⟨a, rest⟩ := p
    obtain ⟨hs, hna⟩ := splitOnce_some h1
    cases h2 : splitOnce '-' rest with
    | none =>
      exfalso
      rw [hs, List.count_append, List.count_eq_zero.mpr hna,
        List.count_cons_self, List.count_eq_zero.mpr (splitOnce_none_not_mem h2)] at h
      omega
    | some q =>
      obtain ⟨b, c⟩ := q
      obtain ⟨hr, hnb⟩ := splitOnce_some h2
      refine ⟨a, b, c, by rw [hs, hr], hna, hnb, ?_⟩
      simp [splitMax2, h1, h2]

lemma parse_site_name_fallback {s : String} (h : s.data.count '-' < 2) :
    parse_site_name (Cell.cStr s) = ("", "", pyStrip s) := by
  cases h1 : splitOnce '-' s.data with
  | none => simp [parse_site_name, splitMax2, h1]
  | some p =>
    obtain ⟨a, rest⟩ := p
    obtain ⟨hs, hna⟩ := splitOnce_some h1
    cases h2 : splitOnce '-' rest with
    | none => simp [parse_site_name, splitMax2, h1, h2]
    | some q =>
      exfalso
      obtain ⟨b, c⟩ := q
      obtain ⟨hr, hnb⟩ := splitOnce_some h2
      rw [hs, hr] at h
      simp [List.count_append, List.count_cons_self] at h
      omega

lemma parse_site_name_split {s : String} (h : 2 ≤ s.data.count '-') :
    ∃ a b c, s.data = a ++ '-' :: (b ++ '-' :: c) ∧ '-' ∉ a ∧ '-' ∉ b ∧
      parse_site_name (Cell.cStr s) =
        (String.mk (pyStripL a), String.mk (pyStripL b), String.mk (pyStripL c)) := by
  obtain ⟨a, b, c, hs, hna, hnb, hsp⟩ := splitMax2_of_two_le h
  exact ⟨a, b, c, hs, hna, hnb, by simp [parse_site_name, hsp]⟩

/-- C3: the site-label decoder is a total pure function: a non-string
input yields `("", "", "")`; a string with fewer than two `-`
separators yields `("", "", strip s)`; otherwise the string is split at
its first two separators (a bounded 2-split) and the three segments are
returned stripped, in order. -/
theorem C3_site_label_decoder_total :
    (∀ v : Cell, v.isStr = false → parse_site_name v = ("", "", "")) ∧
    (∀ s : String, s.data.count '-' < 2 →
      parse_site_name (Cell.cStr s) = ("", "", pyStrip s)) ∧
    (∀ s : String, 2 ≤ s.data.count '-' →
      ∃ a b c, s.data = a ++ '-' :: (b ++ '-' :: c) ∧ '-' ∉ a ∧ '-' ∉ b ∧
        parse_site_name (Cell.cStr s) =
          (String.mk (pyStripL a), String.mk (pyStripL b), String.mk (pyStripL c))) := by
  refine ⟨?_, fun s h => parse_site_name_fallback h, fun s h => parse_site_name_split h⟩
  intro v hv
  cases v with
  | cStr s => simp [Cell.isStr] at hv
  | cNum n => rfl
  | cNaN => rfl
  | cNone => rfl

/-- Witness for C3 at concrete inputs. -/
theorem C3_site_label_decoder_total_witness :
    (Cell.cNaN.isStr = false ∧ parse_site_name Cell.cNaN = ("", "", "")) ∧
    (" Candid ".data.count '-' < 2 ∧
      parse_site_name (Cell.cStr " Candid ") = ("", "", pyStrip " Candid ")) :=
  ⟨⟨by decide, C3_site_label_decoder_total.1 Cell.cNaN (by decide)⟩,
   ⟨by decide, C3_site_label_decoder_total.2.1 " Candid " (by decide)⟩⟩

/-- C4 is false as stated: `"--x"` contains two separators, yet the
decoded zone segment is empty (not "three non-empty trimmed segments"),
and for `"a - b - c"` rejoining the trimmed segments with the separator
does not reconstruct the string modulo surrounding whitespace (interior
whitespace around the separators is lost). -/
theorem C4_counterexample :
    (2 ≤ "--x".data.count '-' ∧ (parse_site_name (Cell.cStr "--x")).1 = "") ∧
    (2 ≤ "a - b - c".data.count '-' ∧
      (parse_site_name (Cell.cStr "a - b - c")).1 ++ "-" ++
        (parse_site_name (Cell.cStr "a - b - c")).2.1 ++ "-" ++
        (parse_site_name (Cell.cStr "a - b - c")).2.2 ≠ pyStrip "a - b - c") := by
  constructor
  · exact ⟨by decide, by decide⟩
  · exact ⟨by decide, by decide⟩

/-- C4 (amended): for strings with at least two separators, decoding
returns the three segments of the bounded 2-split, each stripped
(possibly empty); rejoining the unstripped segments with the separator
at its first two occurrences reconstructs the string exactly. -/
theorem C4_decode_rejoin :
    ∀ s : String, 2 ≤ s.data.count '-' →
      ∃ a b c, s.data = a ++ '-' :: (b ++ '-' :: c) ∧ '-' ∉ a ∧ '-' ∉ b ∧
        parse_site_name (Cell.cStr s) =
          (String.mk (pyStripL a), String.mk (pyStripL b), String.mk (pyStripL c)) :=
  fun _ h => parse_site_name_split h

/-- Witness for the amended C4 at a concrete input. -/
theorem C4_decode_rejoin_witness :
    2 ≤ "4-361-Candid Manesar".data.count '-' ∧
    ∃ a b c, "4-361-Candid Manesar".data = a ++ '-' :: (b ++ '-' :: c) ∧
      '-' ∉ a ∧ '-' ∉ b ∧
      parse_site_name (Cell.cStr "4-361-Candid Manesar") =
        (String.mk (pyStripL a), String.mk (pyStripL b), String.mk (pyStripL c)) :=
  ⟨by decide, C4_decode_rejoin "4-361-Candid Manesar" (by decide)⟩

/-! ### The render context never exposes a missing-value marker (C2) -/

lemma normalize_cell_not_na (v : Cell) :
    normalize_cell v ≠ Cell.cNaN ∧ normalize_cell v ≠ Cell.cNone := by
  cases v <;> simp [normalize_cell, Cell.isna]

/-- C2: every key of the cleaned scalar render context maps to a value
that is neither `NaN` nor `None`, for every input row; and for a row
with no columns at all, every declared key defaults to the empty
string. -/
theorem C2_context_no_missing_markers :
    (∀ (row : Row) (k : String) (v : Cell),
      (k, v) ∈ build_context row → v ≠ Cell.cNaN ∧ v ≠ Cell.cNone) ∧
    (∀ kv ∈ build_context ([] : Row), kv.2 = Cell.cStr "") := by
  constructor
  · intro row k v hmem
    simp only [build_context, List.mem_map] at hmem
    obtain ⟨kv, _, hkv⟩ := hmem
    have hv : normalize_cell kv.2 = v := congrArg Prod.snd hkv
    rw [← hv]
    exact normalize_cell_not_na kv.2
  · decide

/-- Witness for C2: a row whose `Date` cell is `NaN` still yields a
clean `date` entry. -/
theorem C2_context_no_missing_markers_witness :
    ("date", Cell.cStr "") ∈ build_context [("Date", Cell.cNaN)] ∧
    (Cell.cStr "" ≠ Cell.cNaN ∧ Cell.cStr "" ≠ Cell.cNone) :=
  ⟨by decide,
   C2_context_no_missing_markers.1 [("Date", Cell.cNaN)] "date" (Cell.cStr "") (by decide)⟩

/-! ### Date filtering is a pure partition (C5) -/

/-- A row whose parsed date equals the selected date. -/
def dateMatches (d : String) (r : TableRow) : Prop := r.date_parsed = some d

/-- A row whose date parsed but differs from the selected date. -/
def dateDiffers (d : String) (r : TableRow) : Prop :=
  ∃ e, r.date_parsed = some e ∧ e ≠ d

/-- A row whose date failed to parse (`NaT`). -/
def dateUnparseable (r : TableRow) : Prop := r.date_parsed = none

/-- C5: every row satisfies exactly one of {matches, differs,
unparseable}; the export batch contains exactly the rows of the table
that match, is an ordered sublist of the table, and excludes every
unparseable row. -/
theorem C5_date_filter_partition :
    ∀ (t : List TableRow) (d : String),
      (∀ r : TableRow,
        (dateMatches d r ∧ ¬dateDiffers d r ∧ ¬dateUnparseable r) ∨
        (¬dateMatches d r ∧ dateDiffers d r ∧ ¬dateUnparseable r) ∨
        (¬dateMatches d r ∧ ¬dateDiffers d r ∧ dateUnparseable r)) ∧
      (∀ r : TableRow, r ∈ export_batch t d ↔ r ∈ t ∧ dateMatches d r) ∧
      (export_batch t d).Sublist t ∧
      (∀ r ∈ t, dateUnparseable r → r ∉ export_batch t d) := by
  intro t d
  refine ⟨?_, ?_, List.filter_sublist t, ?_⟩
  · intro r
    cases h : r.date_parsed with
    | none =>
      right; right
      simp [dateMatches, dateDiffers, dateUnparseable, h]
    | some e =>
      by_cases he : e = d
      · left
        subst he
        simp [dateMatches, dateDiffers, dateUnparseable, h]
      · right; left
        simp [dateMatches, dateDiffers, dateUnparseable, h]
        exact he
  · intro r
    simp [export_batch, List.mem_filter, dateMatches]
  · intro r _ hu hmem
    simp [export_batch, List.mem_filter] at hmem
    rw [hu] at hmem
    exact Option.noConfusion hmem.2

/-- Witness for C5: a concrete unparseable row remains in the table but
is excluded from the batch. -/
theorem C5_date_filter_partition_witness :
    TableRow.mk [] none ∈ [TableRow.mk [] none] ∧
    dateUnparseable (TableRow.mk [] none) ∧
    TableRow.mk [] none ∉ export_batch [TableRow.mk [] none] "2024-05-01" :=
  ⟨by decide, rfl,
   (C5_date_filter_partition [TableRow.mk [] none] "2024-05-01").2.2.2
     (TableRow.mk [] none) (by decide) rfl⟩

/-! ### Archive entry naming (C6, C10) -/

lemma pdf_filename_eq (d : String) (row : Row) :
    pdf_filename d row =
      d ++ "_" ++ site_slug row ++ ".pdf" := rfl

/-- C6: when the decoded site name is non-empty, the archive entry name
is the selected date and the decoded site name (spaces replaced by
underscores) joined by an underscore, with the `.pdf` suffix; in
particular date `2024-05-01` with site label `4-361-Candid Manesar`
yields `2024-05-01_Candid_Manesar.pdf`. -/
theorem C6_pdf_entry_name :
    (∀ (d : String) (row : Row),
      (parse_site_name (rowGet row "Site Name" (Cell.cStr "Site"))).2.2 ≠ "" →
      pdf_filename d row =
        d ++ "_" ++
          underscoreSpaces (parse_site_name (rowGet row "Site Name" (Cell.cStr "Site"))).2.2
          ++ ".pdf") ∧
    pdf_filename "2024-05-01" [("Site Name", Cell.cStr "4-361-Candid Manesar")] =
      "2024-05-01_Candid_Manesar.pdf" := by
  constructor
  · intro d row h
    rw [pdf_filename_eq]
    simp [site_slug, h]
  · decide

/-- Witness for C6 at the concrete row of the claim. -/
theorem C6_pdf_entry_name_witness :
    (parse_site_name
        (rowGet [("Site Name", Cell.cStr "4-361-Candid Manesar")] "Site Name"
          (Cell.cStr "Site"))).2.2 ≠ "" ∧
    pdf_filename "2024-05-01" [("Site Name", Cell.cStr "4-361-Candid Manesar")] =
      "2024-05-01" ++ "_" ++
        underscoreSpaces
          (parse_site_name
            (rowGet [("Site Name", Cell.cStr "4-361-Candid Manesar")] "Site Name"
              (Cell.cStr "Site"))).2.2 ++ ".pdf" :=
  ⟨by decide,
   C6_pdf_entry_name.1 "2024-05-01" [("Site Name", Cell.cStr "4-361-Candid Manesar")]
     (by decide)⟩

/-- C10: when the decoded site name is empty, the literal `"Site"`
placeholder is substituted, yielding `<date>_Site.pdf`. -/
theorem C10_empty_site_placeholder :
    ∀ (d : String) (row : Row),
      (parse_site_name (rowGet row "Site Name" (Cell.cStr "Site"))).2.2 = "" →
      pdf_filename d row = d ++ "_Site.pdf" := by
  intro d row h
  rw [pdf_filename_eq]
  have hs : site_slug row = "Site" := by
    simp [site_slug, h]
    decide
  rw [hs, String.append_assoc, String.append_assoc]
  exact congrArg (d ++ ·) (by decide)

/-- Witness for C10: a row whose `Site Name` cell is `NaN` decodes to
an empty site name and gets the placeholder entry name. -/
theorem C10_empty_site_placeholder_witness :
    (parse_site_name
        (rowGet [("Site Name", Cell.cNaN)] "Site Name" (Cell.cStr "Site"))).2.2 = "" ∧
    pdf_filename "2024-05-01" [("Site Name", Cell.cNaN)] = "2024-05-01" ++ "_Site.pdf" :=
  ⟨by decide, C10_empty_site_placeholder "2024-05-01" [("Site Name", Cell.cNaN)] (by decide)⟩

/-! ### Empty batch and batch-abort behavior (C9, C7) -/

/-- C9: when the date filter selects no rows, the page warns about the
empty result and offers no download, whether or not Generate is
clicked (the Generate action is unreachable in that state). -/
theorem C9_empty_batch_no_archive :
    ∀ (conv : Row → Except String String) (t : List TableRow) (d : String),
      export_batch t d = [] →
      ∀ clicked : Bool, render_page conv t d clicked = ⟨true, false, none⟩ := by
  intro conv t d h clicked
  simp [render_page, h]

/-- A conversion oracle that always succeeds, for concrete witnesses. -/
def okConv : Row → Except String String := fun _ => Except.ok "PDFBYTES"

/-- Witness for C9: a one-row table whose only date differs from the
selected date. -/
theorem C9_empty_batch_no_archive_witness :
    export_batch [TableRow.mk [] (some "2024-05-02")] "2024-05-01" = [] ∧
    render_page okConv [TableRow.mk [] (some "2024-05-02")] "2024-05-01" true =
      ⟨true, false, none⟩ :=
  ⟨by decide,
   C9_empty_batch_no_archive okConv [TableRow.mk [] (some "2024-05-02")] "2024-05-01"
     (by decide) true⟩

lemma generate_zip_error (conv : Row → Except String String) (d : String) :
    ∀ (pre post : List TableRow) (r : TableRow) (e : String),
      (∀ r2 ∈ pre, ∃ b, conv r2.cells = Except.ok b) →
      conv r.cells = Except.error e →
      generate_zip conv d (pre ++ r :: post) = Except.error e
  | [], _, r, e, _, hr => by simp [generate_zip, hr]
  | p :: ps, post, r, e, hpre, hr => by
    obtain ⟨b, hb⟩ := hpre p (List.mem_cons_self p ps)
    have ih := generate_zip_error conv d ps post r e
      (fun r2 hm => hpre r2 (List.mem_cons_of_mem p hm)) hr
    simp [generate_zip, hb, ih]

/-- C7: if every row before some row converts successfully and that row
raises, the whole batch invocation fails with that error: the archive
build returns the error whatever rows follow, and the page shows the
error and offers no download (not even a partial archive). -/
theorem C7_row_failure_aborts_batch :
    ∀ (conv : Row → Except String String) (d : String)
      (pre post : List TableRow) (r : TableRow) (e : String),
      (∀ r2 ∈ pre, ∃ b, conv r2.cells = Except.ok b) →
      conv r.cells = Except.error e →
      generate_zip conv d (pre ++ r :: post) = Except.error e ∧
      ∀ t : List TableRow, export_batch t d = pre ++ r :: post →
        render_page conv t d true = ⟨false, true, none⟩ := by
  intro conv d pre post r e hpre hr
  have hz := generate_zip_error conv d pre post r e hpre hr
  refine ⟨hz, fun t ht => ?_⟩
  simp [render_page, ht, hz]

/-- A conversion oracle that raises exactly on rows with no cells. -/
def failOnEmptyConv : Row → Except String String :=
  fun row => if row = [] then Except.error "conversion failed" else Except.ok "PDFBYTES"

/-- Witness for C7: second row of a three-row batch raises; the batch
errors even though the first row succeeded and a third row follows. -/
theorem C7_row_failure_aborts_batch_witness :
    (∀ r2 ∈ [TableRow.mk [("Site Name", Cell.cStr "4-361-A")] (some "2024-05-01")],
      ∃ b, failOnEmptyConv r2.cells = Except.ok b) ∧
    failOnEmptyConv (TableRow.mk [] (some "2024-05-01")).cells =
      Except.error "conversion failed" ∧
    generate_zip failOnEmptyConv "2024-05-01"
      ([TableRow.mk [("Site Name", Cell.cStr "4-361-A")] (some "2024-05-01")] ++
        TableRow.mk [] (some "2024-05-01") ::
          [TableRow.mk [("Site Name", Cell.cStr "4-362-B")] (some "2024-05-01")]) =
      Except.error "conversion failed" :=
  ⟨by
      intro r2 hm
      rw [List.mem_singleton] at hm
      subst hm
      exact ⟨"PDFBYTES", rfl⟩,
   rfl,
   (C7_row_failure_aborts_batch failOnEmptyConv "2024-05-01"
      [TableRow.mk [("Site Name", Cell.cStr "4-361-A")] (some "2024-05-01")]
      [TableRow.mk [("Site Name", Cell.cStr "4-362-B")] (some "2024-05-01")]
      (TableRow.mk [] (some "2024-05-01")) "conversion failed"
      (by
        intro r2 hm
        rw [List.mem_singleton] at hm
        subst hm
        exact ⟨"PDFBYTES", rfl⟩)
      rfl).1⟩

/-! ### Image resolution is a pure ordered filter (C1) -/

lemma foldl_append_filterMap (f : String → Option String) :
    ∀ (urls : List String) (acc : List String),
      urls.foldl
        (fun acc url =>
          match f url with
          | some b => acc ++ [b]
          | none => acc) acc = acc ++ urls.filterMap f
  | [], acc => by simp
  | u :: us, acc => by
    cases h : f u with
    | none =>
      simp only [List.foldl_cons, List.filterMap_cons, h]
      exact foldl_append_filterMap f us acc
    | some b =>
      simp only [List.foldl_cons, List.filterMap_cons, h]
      rw [foldl_append_filterMap f us (acc ++ [b])]
      simp

/-- A concrete network oracle: the `GOODID` endpoint serves an image,
the `HTMLID` endpoint serves an HTML page, everything else raises. -/
def exampleFetch : Fetch := fun u =>
  if u = drive_download_url "GOODID" then
    FetchResult.resp 200 (some "image/png") "PNGBYTES"
  else if u = drive_download_url "HTMLID" then
    FetchResult.resp 200 (some "text/html") "HTMLBYTES"
  else FetchResult.netError

/-- A reference list with one well-formed image link, one malformed
link, and one link whose response is not an image. -/
def exampleRefs : String :=
  "https://drive.google.com/file/d/GOODID/view, no-usable-link, https://drive.google.com/open?id=HTMLID"

/-- C1: image resolution never fails a list: for every network oracle
the result is exactly the ordered `filterMap` of per-reference
downloads over the split, stripped, non-blank references; a reference
with a sentinel (empty) extracted ID yields no payload; a transport
failure on a reference yields no payload for it; and on the concrete
good/malformed/non-image list the result is exactly the one good
payload. -/
theorem C1_image_resolution_filter :
    (∀ (fetch : Fetch) (images_raw : String),
      resolve_images fetch images_raw =
        (split_urls images_raw).filterMap (download_drive_image fetch)) ∧
    (∀ (fetch : Fetch) (url : String),
      extract_drive_file_id url = "" → download_drive_image fetch url = none) ∧
    (∀ (fetch : Fetch) (url : String),
      fetch (drive_download_url (extract_drive_file_id url)) = FetchResult.netError →
      download_drive_image fetch url = none) ∧
    resolve_images exampleFetch exampleRefs = ["PNGBYTES"] := by
  refine ⟨?_, ?_, ?_, by decide⟩
  · intro fetch s
    simpa using foldl_append_filterMap (download_drive_image fetch) (split_urls s) []
  · intro fetch url h
    simp [download_drive_image, h]
  · intro fetch url h
    by_cases he : extract_drive_file_id url = ""
    · simp [download_drive_image, he]
    · simp [download_drive_image, he, h]

/-- Witness for C1: the malformed reference has a sentinel ID and is
skipped, and a reference whose fetch raises is skipped. -/
theorem C1_image_resolution_filter_witness :
    (extract_drive_file_id "no-usable-link" = "" ∧
      download_drive_image exampleFetch "no-usable-link" = none) ∧
    (exampleFetch
        (drive_download_url (extract_drive_file_id "https://example.com/d/OTHERID/x")) =
        FetchResult.netError ∧
      download_drive_image exampleFetch "https://example.com/d/OTHERID/x" = none) :=
  ⟨⟨by decide, C1_image_resolution_filter.2.1 exampleFetch "no-usable-link" (by decide)⟩,
   ⟨by decide,
    C1_image_resolution_filter.2.2.1 exampleFetch "https://example.com/d/OTHERID/x"
      (by decide)⟩⟩

/-! ### Regex-scanner lemmas for C8 -/

lemma takeIdChars_all : ∀ {l : List Char} {c : Char}, c ∈ takeIdChars l → idChar c = true := by
  intro l
  induction l with
  | nil => intro c hc; simp [takeIdChars] at hc
  | cons x xs ih =>
    intro c hc
    cases hx : idChar x with
    | false => simp [takeIdChars, hx] at hc
    | true =>
      simp only [takeIdChars, hx, if_true] at hc
      rcases List.mem_cons.mp hc with rfl | hm
      · exact hx
      · exact ih hm

lemma litMatch_self_append : ∀ (lit rest : List Char), litMatch lit (lit ++ rest) = true
  | [], _ => rfl
  | a :: as, rest => by simp [litMatch, litMatch_self_append as rest]

lemma litMatch_decomp : ∀ {lit m : List Char}, litMatch lit m = true →
    m = lit ++ m.drop lit.length := by
  intro lit
  induction lit with
  | nil => intro m _; rfl
  | cons a as ih =>
    intro m h
    cases m with
    | nil => simp [litMatch] at h
    | cons b bs =>
      simp only [litMatch, Bool.and_eq_true, beq_iff_eq] at h
      obtain ⟨rfl, h2⟩ := h
      simpa using congrArg (a :: ·) (ih h2)

lemma takeIdChars_append_ne_nil {a suf : List Char} (h : takeIdChars a ≠ []) :
    takeIdChars (a ++ suf) ≠ [] := by
  cases a with
  | nil => simp [takeIdChars] at h
  | cons c cs =>
    cases hc : idChar c with
    | false => simp [takeIdChars, hc] at h
    | true => simp [takeIdChars, hc]

lemma scanLitId_ne_none_of_decomp {lit : List Char} :
    ∀ (p rest : List Char), takeIdChars rest ≠ [] →
      scanLitId lit (p ++ (lit ++ rest)) ≠ none := by
  intro p
  induction p with
  | nil =>
    intro rest hr
    cases hrest : rest with
    | nil => rw [hrest] at hr; simp [takeIdChars] at hr
    | cons x xs =>
      subst hrest
      have hx : idChar x = true := by
        cases hx2 : idChar x with
        | true => rfl
        | false => exact absurd (by simp [takeIdChars, hx2]) hr
      cases lit with
      | nil => simp [scanLitId, litMatch, takeIdChars, hx]
      | cons a as =>
        have hm : litMatch (a :: as) (a :: (as ++ x :: xs)) = true :=
          litMatch_self_append (a :: as) (x :: xs)
        simp [scanLitId, List.cons_append, hm, List.length_cons,
          List.drop_succ_cons, List.drop_left, takeIdChars, hx]
  | cons c ps ih =>
    intro rest hr
    cases hm : litMatch lit (c :: (ps ++ (lit ++ rest))) with
    | true =>
      cases ht : takeIdChars ((c :: (ps ++ (lit ++ rest))).drop lit.length) with
      | nil =>
        simp only [List.cons_append]
        simp [scanLitId, hm, ht]
        exact ih rest hr
      | cons y ys =>
        simp only [List.cons_append]
        simp [scanLitId, hm, ht]
    | false =>
      simp only [List.cons_append]
      simp [scanLitId, hm]
      exact ih rest hr

lemma scanLitId_some_decomp {lit : List Char} :
    ∀ {l r : List Char}, scanLitId lit l = some r →
      ∃ p rest, l = p ++ (lit ++ rest) ∧ takeIdChars rest = r ∧ r ≠ [] := by
  intro l
  induction l with
  | nil => intro r h; exact absurd h (by simp [scanLitId])
  | cons c cs ih =>
    intro r h
    cases hm : litMatch lit (c :: cs) with
    | false =>
      simp [scanLitId, hm] at h
      obtain ⟨p, rest, hl, hta, hrne⟩ := ih h
      exact ⟨c :: p, rest, by rw [List.cons_append, hl], hta, hrne⟩
    | true =>
      cases ht : takeIdChars ((c :: cs).drop lit.length) with
      | nil =>
        simp [scanLitId, hm, ht] at h
        obtain ⟨p, rest, hl, hta, hrne⟩ := ih h
        exact ⟨c :: p, rest, by rw [List.cons_append, hl], hta, hrne⟩
      | cons y ys =>
        simp [scanLitId, hm, ht] at h
        refine ⟨[], (c :: cs).drop lit.length, ?_, ?_, ?_⟩
        · simpa using litMatch_decomp hm
        · rw [ht, h]
        · rw [← h]; simp

lemma scanLitId_none_infix {lit p mid q : List Char}
    (h : scanLitId lit (p ++ (mid ++ q)) = none) : scanLitId lit mid = none := by
  cases hs : scanLitId lit mid with
  | none => rfl
  | some r =>
    exfalso
    obtain ⟨p2, rest, hl, hta, hrne⟩ := scanLitId_some_decomp hs
    have hne : takeIdChars (rest ++ q) ≠ [] :=
      takeIdChars_append_ne_nil (by rw [hta]; exact hrne)
    have heq : p ++ (mid ++ q) = (p ++ p2) ++ (lit ++ (rest ++ q)) := by
      rw [hl]; simp [List.append_assoc]
    rw [heq] at h
    exact scanLitId_ne_none_of_decomp (p ++ p2) (rest ++ q) hne h

lemma scanLitId_some_chars {lit l r : List Char} (h : scanLitId lit l = some r) :
    ∀ c ∈ r, idChar c = true := by
  obtain ⟨p, rest, _, hta, _⟩ := scanLitId_some_decomp h
  intro c hc
  rw [← hta] at hc
  exact takeIdChars_all hc

lemma idChar_not_ws {c : Char} (h : idChar c = true) : c.isWhitespace = false := by
  cases hw : c.isWhitespace with
  | false => rfl
  | true =>
    exfalso
    simp [Char.isWhitespace] at hw
    rcases hw with ((rfl | rfl) | rfl) | rfl <;> exact absurd h (by decide)

lemma scanLitId_slash_none {l : List Char} (h : ∀ c ∈ l, idChar c = true) :
    ∀ rest, scanLitId ('/' :: rest) l = none := by
  induction l with
  | nil => intro rest; rfl
  | cons c cs ih =>
    intro rest
    have hc : idChar c = true := h c (List.mem_cons_self c cs)
    have hne : ('/' == c) = false := by
      rw [beq_eq_false_iff_ne]
      rintro rfl
      exact absurd hc (by decide)
    have hcs := fun x hx => h x (List.mem_cons_of_mem c hx)
    simp [scanLitId, litMatch, hne, ih hcs rest]

lemma sheetLit_cons : sheetLit = '/' :: "spreadsheets/d/".data := rfl

/-! ### Stripping lemmas for C8 -/

lemma stripLeft_eq_self {l : List Char} (h : ∀ c ∈ l, c.isWhitespace = false) :
    stripLeft l = l := by
  cases l with
  | nil => rfl
  | cons c cs =>
    have := h c (List.mem_cons_self c cs)
    simp [stripLeft, List.dropWhile_cons, this]

lemma pyStripL_eq_self {l : List Char} (h : ∀ c ∈ l, c.isWhitespace = false) :
    pyStripL l = l := by
  unfold pyStripL
  rw [stripLeft_eq_self h]
  rw [show l.reverse.dropWhile Char.isWhitespace = l.reverse from
    stripLeft_eq_self (fun c hc => h c (List.mem_reverse.mp hc))]
  exact List.reverse_reverse l

lemma dropWhile_ws_idem (l : List Char) :
    (l.dropWhile Char.isWhitespace).dropWhile Char.isWhitespace =
      l.dropWhile Char.isWhitespace := by
  induction l with
  | nil => rfl
  | cons c cs ih =>
    cases h : c.isWhitespace with
    | true => simp [List.dropWhile_cons, h, ih]
    | false => simp [List.dropWhile_cons, h]

lemma length_dropWhile_ws_le (l : List Char) :
    (l.dropWhile Char.isWhitespace).length ≤ l.length := by
  induction l with
  | nil => exact Nat.le_refl _
  | cons c cs ih =>
    cases h : c.isWhitespace with
    | true =>
      rw [List.dropWhile_cons, if_pos h]
      exact Nat.le_succ_of_le ih
    | false =>
      rw [List.dropWhile_cons, if_neg (by simp [h])]

lemma dropWhile_cons_eq_self {c : Char} {cs : List Char}
    (h : (c :: cs).dropWhile Char.isWhitespace = c :: cs) : c.isWhitespace = false := by
  cases hc : c.isWhitespace with
  | false => rfl
  | true =>
    exfalso
    rw [List.dropWhile_cons, if_pos hc] at h
    have h1 := congrArg List.length h
    have h2 : (cs.dropWhile Char.isWhitespace).length ≤ cs.length :=
      length_dropWhile_ws_le cs
    simp at h1
    omega

lemma stripLeft_decomp (l : List Char) :
    stripLeft l =
      pyStripL l ++ ((stripLeft l).reverse.takeWhile Char.isWhitespace).reverse := by
  conv_lhs => rw [← List.reverse_reverse (stripLeft l)]
  conv_lhs =>
    rw [← List.takeWhile_append_dropWhile (p := Char.isWhitespace)
      (l := (stripLeft l).reverse)]
  rw [List.reverse_append]
  rfl

lemma stripL_of_strip (l : List Char) : stripLeft (pyStripL l) = pyStripL l := by
  cases hp : pyStripL l with
  | nil => rfl
  | cons c cs =>
    obtain ⟨w, hdec⟩ : ∃ w, stripLeft l = pyStripL l ++ w :=
      ⟨_, stripLeft_decomp l⟩
    rw [hp, List.cons_append] at hdec
    have hid : stripLeft (stripLeft l) = stripLeft l := dropWhile_ws_idem l
    rw [hdec] at hid
    have hcw : c.isWhitespace = false := dropWhile_cons_eq_self hid
    simp [stripLeft, List.dropWhile_cons, hcw]

lemma stripR_rev_drop (l : List Char) :
    (pyStripL l).reverse.dropWhile Char.isWhitespace = (pyStripL l).reverse := by
  unfold pyStripL
  rw [List.reverse_reverse]
  exact dropWhile_ws_idem (stripLeft l).reverse

lemma pyStripL_idem (l : List Char) : pyStripL (pyStripL l) = pyStripL l := by
  show ((stripLeft (pyStripL l)).reverse.dropWhile Char.isWhitespace).reverse = pyStripL l
  rw [stripL_of_strip, stripR_rev_drop, List.reverse_reverse]

lemma pyStripL_infix (l : List Char) : ∃ p q, l = p ++ (pyStripL l ++ q) := by
  refine ⟨l.takeWhile Char.isWhitespace,
    ((stripLeft l).reverse.takeWhile Char.isWhitespace).reverse, ?_⟩
  conv_lhs => rw [← List.takeWhile_append_dropWhile (p := Char.isWhitespace) (l := l)]
  rw [← stripLeft_decomp]
  rfl

/-- C8: spreadsheet identifier extraction is idempotent on every input
string, and a bare ID with surrounding whitespace is returned
trimmed. -/
theorem C8_extract_sheet_id_idempotent :
    (∀ s : String, extract_sheet_id (extract_sheet_id s) = extract_sheet_id s) ∧
    extract_sheet_id "  1AbC-def_GHI " = "1AbC-def_GHI" := by
  constructor
  · intro s
    cases hs : scanLitId sheetLit s.data with
    | some r =>
      have hchars : ∀ c ∈ r, idChar c = true := scanLitId_some_chars hs
      have hnows : ∀ c ∈ r, c.isWhitespace = false :=
        fun c hc => idChar_not_ws (hchars c hc)
      have h1 : extract_sheet_id s = String.mk r := by
        simp [extract_sheet_id, hs]
      rw [h1]
      have h2 : scanLitId sheetLit r = none := by
        rw [sheetLit_cons]
        exact scanLitId_slash_none hchars _
      have h3 : (String.mk r).data = r := rfl
      simp [extract_sheet_id, h3, h2, pyStrip, pyStripL_eq_self hnows]
    | none =>
      have h1 : extract_sheet_id s = String.mk (pyStripL s.data) := by
        simp [extract_sheet_id, hs, pyStrip]
      rw [h1]
      obtain ⟨p, q, hdec⟩ := pyStripL_infix s.data
      have h2 : scanLitId sheetLit (pyStripL s.data) = none := by
        apply scanLitId_none_infix (p := p) (q := q)
        rw [← hdec]
        exact hs
      have h3 : (String.mk (pyStripL s.data)).data = pyStripL s.data := rfl
      simp [extract_sheet_id, h3, h2, pyStrip, pyStripL_idem]
  · decide

end DutyMitra
